import Mathlib

/-!
Verification of `scriber_2_screenshots/generate_screenshots.py`.

This file gives a shallow embedding, in Lean 4, of the pure computational
core of the script: the CRC-checked bit-grid overlay decoder, the per-frame
decoding pass, the timeline resolver `find_frame_index`, the screenshot
capture loop `capture_action_screenshots`, the overlay style loader, and
the template-similarity helpers.  External image/file I/O (OpenCV, numpy
pixel arrays, the filesystem) is abstracted at the narrowest possible
boundary: an image region that has already been averaged into per-cell
bits, a video that has already been read into a list of per-frame data,
a style file that has already been scanned into key/value matches.  All
arithmetic the Python source performs on exact integers is modelled on
`Nat`/`Int`; real-valued scores are modelled as exact rationals.
-/

/-- Mirrors the dataclass `FrameOcrResult` (source lines 36-40): one decoded
result per video frame.  `ms` is `none` when decoding failed.  Python ints
are modelled as `Int` (the resolver compares them with possibly negative
targets).  The per-digit metric floats are modelled as exact rationals. -/
structure FrameOcrResult where
  frame_index : Int
  ms : Option Int
  digit_match_metrics : List (Option ℚ) := []

/-- The list `valid = [(r.frame_index, r.ms) for r in frame_results if r.ms is not None]`
built at the top of `find_frame_index` (source line 438): the present-valued
(frame index, millisecond) pairs in original frame order. -/
def presentPairs (frame_results : List FrameOcrResult) : List (Int × Int) :=
  frame_results.filterMap (fun r => r.ms.map (fun m => (r.frame_index, m)))

/-- Mirrors `find_frame_index` (source lines 433-449).  The Python function
returns an `int` or raises `ValueError` on an unknown mode; this is modelled
with `Except String Int`.  `valid[0]` / `valid[-1]` / `candidate[-1] if
candidate else ...` are rendered with `head?` / `getLastD` / `headD`, which
agree with Python indexing because the guard has ruled out the empty list. -/
def find_frame_index (frame_results : List FrameOcrResult) (target_ms : Int)
    (mode : String) : Except String Int :=
  match (presentPairs frame_results).head? with
  | none => Except.ok 0
  | some first =>
      if mode = "at_or_before" then
        Except.ok ((((presentPairs frame_results).filter
          (fun q => q.2 ≤ target_ms)).map Prod.fst).getLastD first.1)
      else if mode = "at_or_after" then
        Except.ok ((((presentPairs frame_results).filter
          (fun q => target_ms ≤ q.2)).map Prod.fst).headD
          ((presentPairs frame_results).getLastD first).1)
      else Except.error ("Unsupported mode: " ++ mode)

/-- The concrete four-frame timeline `[(0,100),(1,250),(2,absent),(3,900)]`
used by the spec and the tests. -/
def exampleTimeline : List FrameOcrResult :=
  [⟨0, some 100, []⟩, ⟨1, some 250, []⟩, ⟨2, none, []⟩, ⟨3, some 900, []⟩]

section FindFrameIndexLemmas

lemma getLastD_append_singleton {α : Type} (l : List α) (a d : α) :
    (l ++ [a]).getLastD d = a := by
  rw [List.getLastD_eq_getLast? d (l ++ [a]), List.getLast?_concat]
  rfl

lemma find_frame_index_before_eq (tl : List FrameOcrResult) (t : Int)
    (first : Int × Int) (h : (presentPairs tl).head? = some first) :
    find_frame_index tl t "at_or_before" =
      Except.ok ((((presentPairs tl).filter
        (fun q => q.2 ≤ t)).map Prod.fst).getLastD first.1) := by
  unfold find_frame_index
  rw [h]
  rfl

lemma find_frame_index_after_eq (tl : List FrameOcrResult) (t : Int)
    (first : Int × Int) (h : (presentPairs tl).head? = some first) :
    find_frame_index tl t "at_or_after" =
      Except.ok ((((presentPairs tl).filter
        (fun q => t ≤ q.2)).map Prod.fst).headD
        ((presentPairs tl).getLastD first).1) := by
  unfold find_frame_index
  rw [h]
  rfl

lemma find_frame_index_bad_mode (tl : List FrameOcrResult) (t : Int)
    (mode : String) (first : Int × Int)
    (h : (presentPairs tl).head? = some first)
    (h1 : mode ≠ "at_or_before") (h2 : mode ≠ "at_or_after") :
    find_frame_index tl t mode = Except.error ("Unsupported mode: " ++ mode) := by
  unfold find_frame_index
  rw [h]
  simp [h1, h2]

end FindFrameIndexLemmas

/-- C2: the resolver policy of `find_frame_index`.  In mode `at_or_before`
it returns the frame index of the last present-valued pair whose value is
at most the target (first conjunct), falling back to the first present pair
when no pair qualifies (second conjunct); in mode `at_or_after` it returns
the frame index of the first present-valued pair whose value is at least
the target (third conjunct), falling back to the last present pair when no
pair qualifies (fourth conjunct).  "Last/first pair such that ..." is
expressed by a decomposition `l₁ ++ pr :: l₂` of `presentPairs` in which
everything after (resp. before) `pr` fails the test.  The final conjunct
checks the four concrete examples from the spec on the timeline
`[(0,100),(1,250),(2,absent),(3,900)]`. -/
theorem find_frame_index_policy :
    (∀ (tl : List FrameOcrResult) (t : Int) (l₁ : List (Int × Int))
        (pr : Int × Int) (l₂ : List (Int × Int)),
        presentPairs tl = l₁ ++ pr :: l₂ → pr.2 ≤ t → (∀ q ∈ l₂, t < q.2) →
        find_frame_index tl t "at_or_before" = Except.ok pr.1) ∧
    (∀ (tl : List FrameOcrResult) (t : Int) (p₀ : Int × Int)
        (l : List (Int × Int)),
        presentPairs tl = p₀ :: l → (∀ q ∈ presentPairs tl, t < q.2) →
        find_frame_index tl t "at_or_before" = Except.ok p₀.1) ∧
    (∀ (tl : List FrameOcrResult) (t : Int) (l₁ : List (Int × Int))
        (pr : Int × Int) (l₂ : List (Int × Int)),
        presentPairs tl = l₁ ++ pr :: l₂ → t ≤ pr.2 → (∀ q ∈ l₁, q.2 < t) →
        find_frame_index tl t "at_or_after" = Except.ok pr.1) ∧
    (∀ (tl : List FrameOcrResult) (t : Int) (pN : Int × Int)
        (l : List (Int × Int)),
        presentPairs tl = l ++ [pN] → (∀ q ∈ presentPairs tl, q.2 < t) →
        find_frame_index tl t "at_or_after" = Except.ok pN.1) ∧
    (find_frame_index exampleTimeline 275 "at_or_before" = Except.ok 1 ∧
     find_frame_index exampleTimeline 875 "at_or_after" = Except.ok 3 ∧
     find_frame_index exampleTimeline (-10) "at_or_before" = Except.ok 0 ∧
     find_frame_index exampleTimeline 10000 "at_or_after" = Except.ok 3) := by
  refine ⟨?_, ?_, ?_, ?_, by constructor; rfl; constructor; rfl; constructor; rfl; rfl⟩
  · intro tl t l₁ pr l₂ hdec hle hafter
    cases hh : (presentPairs tl).head? with
    | none =>
        rw [List.head?_eq_none_iff] at hh
        rw [hdec] at hh
        exact absurd hh (by simp)
    | some first =>
        rw [find_frame_index_before_eq tl t first hh, hdec]
        have hl₂ : l₂.filter (fun q => q.2 ≤ t) = [] := by
          rw [List.filter_eq_nil_iff]
          intro q hq
          simpa using not_le.mpr (hafter q hq)
        rw [List.filter_append, List.filter_cons_of_pos (by simpa using hle), hl₂,
          List.map_append]
        simp [getLastD_append_singleton]
  · intro tl t p₀ l hdec hnone
    cases hh : (presentPairs tl).head? with
    | none =>
        rw [List.head?_eq_none_iff, hdec] at hh
        exact absurd hh (by simp)
    | some first =>
        have hfirst : first = p₀ := by
          rw [hdec] at hh
          simpa using hh.symm
        rw [find_frame_index_before_eq tl t first hh]
        have hfil : (presentPairs tl).filter (fun q => q.2 ≤ t) = [] := by
          rw [List.filter_eq_nil_iff]
          intro q hq
          simpa using not_le.mpr (hnone q hq)
        rw [hfil]
        simp [hfirst]
  · intro tl t l₁ pr l₂ hdec hle hbefore
    cases hh : (presentPairs tl).head? with
    | none =>
        rw [List.head?_eq_none_iff, hdec] at hh
        exact absurd hh (by simp)
    | some first =>
        rw [find_frame_index_after_eq tl t first hh, hdec]
        have hl₁ : l₁.filter (fun q => t ≤ q.2) = [] := by
          rw [List.filter_eq_nil_iff]
          intro q hq
          simpa using not_le.mpr (hbefore q hq)
        rw [List.filter_append, hl₁, List.filter_cons_of_pos (by simpa using hle)]
        simp
  · intro tl t pN l hdec hall
    cases hh : (presentPairs tl).head? with
    | none =>
        rw [List.head?_eq_none_iff, hdec] at hh
        exact absurd hh (by simp)
    | some first =>
        rw [find_frame_index_after_eq tl t first hh]
        have hfil : (presentPairs tl).filter (fun q => t ≤ q.2) = [] := by
          rw [List.filter_eq_nil_iff]
          intro q hq
          simpa using not_le.mpr (hall q hq)
        rw [hfil, hdec, getLastD_append_singleton]
        rfl

/-- Witness for C2: instantiates the "last pair at or before the target"
clause on the example timeline with target 275, where the qualifying pair
is `(1, 250)` (the decomposition is `[(0,100)] ++ (1,250) :: [(3,900)]`). -/
theorem find_frame_index_policy_witness :
    find_frame_index exampleTimeline 275 "at_or_before" = Except.ok 1 :=
  find_frame_index_policy.1 exampleTimeline 275 [(0, 100)] (1, 250) [(3, 900)]
    rfl (by decide) (by decide)

lemma mem_of_head?_eq {α : Type} {l : List α} {a : α} (h : l.head? = some a) :
    a ∈ l := by
  cases l with
  | nil => simp at h
  | cons x t =>
      simp at h
      simp [h]

lemma mem_of_getLast?_eq {α : Type} {l : List α} {a : α}
    (h : l.getLast? = some a) : a ∈ l := by
  obtain ⟨hne, heq⟩ := List.mem_getLast?_eq_getLast (by simp [h] : a ∈ l.getLast?)
  exact heq ▸ List.getLast_mem hne

lemma getLastD_mem_cons {α : Type} (x : α) (t : List α) (d : α) :
    (x :: t).getLastD d ∈ x :: t := by
  apply mem_of_getLast?_eq
  rw [List.getLastD_eq_getLast? d (x :: t)]
  cases hg : (x :: t).getLast? with
  | none => simp [List.getLast?_eq_none_iff] at hg
  | some b => rfl

/-- C3 counterexample: on a timeline with no present values, an unsupported
mode string does NOT raise: `find_frame_index` returns 0 before it ever
inspects the mode (source line 440 precedes the mode dispatch).  The claim
as stated demands an error for every mode string other than the two valid
ones, which this concrete run refutes. -/
theorem find_frame_index_bad_mode_counterexample :
    find_frame_index [] 0 "bogus" = Except.ok 0 := rfl

/-- C3 (amended): a timeline without any present value resolves to frame
index 0 for every target and both valid modes; and an unsupported mode
string raises `ValueError` (modelled as `Except.error`) provided the
timeline has at least one present value (otherwise the degenerate fallback
returns 0 before the mode is inspected). -/
theorem find_frame_index_degenerate_and_bad_mode :
    (∀ (tl : List FrameOcrResult) (t : Int) (mode : String),
        (mode = "at_or_before" ∨ mode = "at_or_after") →
        (∀ r ∈ tl, r.ms = none) →
        find_frame_index tl t mode = Except.ok 0) ∧
    (∀ (tl : List FrameOcrResult) (t : Int) (mode : String),
        mode ≠ "at_or_before" → mode ≠ "at_or_after" →
        presentPairs tl ≠ [] →
        find_frame_index tl t mode =
          Except.error ("Unsupported mode: " ++ mode)) := by
  constructor
  · intro tl t mode _ hnone
    have hpp : presentPairs tl = [] := by
      rw [presentPairs, List.filterMap_eq_nil_iff]
      intro r hr
      rw [hnone r hr]
      rfl
    unfold find_frame_index
    rw [hpp]
    rfl
  · intro tl t mode h1 h2 hne
    cases hpp : presentPairs tl with
    | nil => exact absurd hpp hne
    | cons p l =>
        exact find_frame_index_bad_mode tl t mode p (by rw [hpp]; rfl) h1 h2

/-- Witness for C3: the degenerate fallback on the all-absent timeline
`[(0, absent)]` with mode `at_or_before`, and the error on the one-present
timeline `[(0, 5)]` with mode `bogus`. -/
theorem find_frame_index_degenerate_and_bad_mode_witness :
    find_frame_index [⟨0, none, []⟩] 42 "at_or_before" = Except.ok 0 :=
  find_frame_index_degenerate_and_bad_mode.1 [⟨0, none, []⟩] 42 "at_or_before"
    (Or.inl rfl) (by intro r hr; simp at hr; rw [hr])

/-- C10: for both valid modes the resolver only ever answers with the frame
index of a present-valued entry: whenever the timeline has at least one
present value, the returned index is a member of
`(presentPairs tl).map Prod.fst`, the frame indices of the entries whose
`ms` decoded successfully (membership in `presentPairs` is exactly "some
entry of the timeline with `frame_index = i` has a present `ms`"). -/
theorem find_frame_index_returns_present_frame :
    ∀ (tl : List FrameOcrResult) (t : Int) (mode : String) (i : Int),
      (mode = "at_or_before" ∨ mode = "at_or_after") →
      (∃ r ∈ tl, r.ms ≠ none) →
      find_frame_index tl t mode = Except.ok i →
      i ∈ (presentPairs tl).map Prod.fst := by
  intro tl t mode i hmode hpresent hfind
  obtain ⟨r, hr, hms⟩ := hpresent
  obtain ⟨m, hm⟩ := Option.ne_none_iff_exists'.mp hms
  have hmem : (r.frame_index, m) ∈ presentPairs tl := by
    rw [presentPairs, List.mem_filterMap]
    exact ⟨r, hr, by rw [hm]; rfl⟩
  have hne : presentPairs tl ≠ [] := fun h => by simp [h] at hmem
  obtain ⟨first, hfirst⟩ : ∃ first, (presentPairs tl).head? = some first := by
    cases hpp : presentPairs tl with
    | nil => exact absurd hpp hne
    | cons p l => exact ⟨p, rfl⟩
  have hsub : ∀ (f : Int × Int → Bool) (x : Int),
      x ∈ ((presentPairs tl).filter f).map Prod.fst →
      x ∈ (presentPairs tl).map Prod.fst := by
    intro f x hx
    obtain ⟨q, hq, hqx⟩ := List.mem_map.mp hx
    exact List.mem_map.mpr ⟨q, List.mem_of_mem_filter hq, hqx⟩
  cases hmode with
  | inl hb =>
      subst hb
      rw [find_frame_index_before_eq tl t first hfirst] at hfind
      have hi := Except.ok.inj hfind
      cases hc : ((presentPairs tl).filter (fun q => q.2 ≤ t)).map Prod.fst with
      | nil =>
          rw [hc] at hi
          have hfi : first.1 = i := hi
          rw [← hfi]
          exact List.mem_map.mpr ⟨first, mem_of_head?_eq hfirst, rfl⟩
      | cons x l =>
          have hmem2 := getLastD_mem_cons x l first.1
          rw [← hc] at hmem2
          rw [hi] at hmem2
          exact hsub _ i hmem2
  | inr ha =>
      subst ha
      rw [find_frame_index_after_eq tl t first hfirst] at hfind
      have hi := Except.ok.inj hfind
      cases hc : ((presentPairs tl).filter (fun q => t ≤ q.2)).map Prod.fst with
      | nil =>
          rw [hc] at hi
          have hfi : ((presentPairs tl).getLastD first).1 = i := hi
          cases hpp : presentPairs tl with
          | nil => exact absurd hpp hne
          | cons p l =>
              rw [hpp] at hfi
              exact List.mem_map.mpr ⟨(p :: l).getLastD first,
                getLastD_mem_cons p l first, hfi⟩
      | cons x l =>
          rw [hc] at hi
          have hfi : x = i := hi
          rw [← hfi]
          exact hsub _ x (by rw [hc]; exact List.mem_cons_self x l)

/-- Witness for C10: on the example timeline with target 875 in mode
`at_or_after`, the resolver answers frame index 3, which is indeed among
the present-valued frame indices. -/
theorem find_frame_index_returns_present_frame_witness :
    (3 : Int) ∈ (presentPairs exampleTimeline).map Prod.fst :=
  find_frame_index_returns_present_frame exampleTimeline 875 "at_or_after" 3
    (Or.inr rfl) ⟨⟨0, some 100, []⟩, by simp [exampleTimeline], by simp⟩ rfl

def ENCODED_GRID_SIZE : Nat := 5

def ENCODED_DATA_BITS : Nat := 20

def ENCODED_CRC_BITS : Nat := 5

def ENCODED_TOTAL_BITS : Nat := ENCODED_DATA_BITS + ENCODED_CRC_BITS

/-- One iteration of the inner loop of `_crc32` (source line 260-261):
`mask = -(crc & 1); crc = (crc >> 1) ^ (0xEDB88320 & mask)`.  In Python the
mask is 0 or -1 and `0xEDB88320 & mask` is therefore 0 or `0xEDB88320`,
which the conditional renders directly. -/
def crc32_round (crc : Nat) : Nat :=
  (crc >>> 1) ^^^ (if crc &&& 1 = 1 then 0xEDB88320 else 0)

/-- Processing of one byte by `_crc32` (source lines 258-261):
`crc ^= byte & 0xFF` followed by eight rounds. -/
def crc32_byte (crc byte : Nat) : Nat :=
  (List.range 8).foldl (fun c _ => crc32_round c) (crc ^^^ (byte &&& 0xFF))

/-- Mirrors `_crc32` (source lines 255-262): the standard reflected CRC-32
(polynomial 0xEDB88320, initial value all-ones, final XOR with all-ones)
over a byte sequence.  Python ints never go negative here, so plain `Nat`
arithmetic suffices; the final `& 0xFFFFFFFF` is kept verbatim. -/
def _crc32 (bytes_seq : List Nat) : Nat :=
  ((bytes_seq.foldl crc32_byte 0xFFFFFFFF) ^^^ 0xFFFFFFFF) &&& 0xFFFFFFFF

/-- Mirrors the payload/checksum logic of `decode_encoded_overlay_ms`
(source lines 292-313).  The pixel-sampling stage (lines 266-290) —
splitting the region into a 5x5 cell grid and thresholding each cell's
mean darkness at 0.5 — is external image arithmetic and is abstracted:
the input is the row-major list of sampled bit values.  The early returns
for a missing or too-small region surface as a list shorter than 25
entries, which the first guard rejects exactly as the source does (the
`elapsed_ms < 0` half of the range check is vacuous on `Nat`). -/
def decode_encoded_overlay_ms (bit_values : List Nat) : Option Nat :=
  if bit_values.length < ENCODED_TOTAL_BITS then none
  else
    let payload := (bit_values.take ENCODED_TOTAL_BITS).foldl
      (fun acc bit => (acc <<< 1) ||| bit) 0
    let received_crc := payload &&& ((1 <<< ENCODED_CRC_BITS) - 1)
    let elapsed_ms := payload >>> ENCODED_CRC_BITS
    if elapsed_ms > (1 <<< ENCODED_DATA_BITS) - 1 then none
    else
      let data_bytes := [(elapsed_ms >>> 16) &&& 0xFF, (elapsed_ms >>> 8) &&& 0xFF,
        elapsed_ms &&& 0xFF]
      let expected_crc := _crc32 data_bytes &&& ((1 <<< ENCODED_CRC_BITS) - 1)
      if received_crc ≠ expected_crc then none
      else some elapsed_ms

/-- The checksum the encoder must place in the last five grid cells for a
payload `ms`: the low `ENCODED_CRC_BITS` bits of the CRC-32 of the three
big-endian payload bytes, exactly the `expected_crc` the decoder computes
(source lines 304-309). -/
def expectedCrc5 (ms : Nat) : Nat :=
  _crc32 [(ms >>> 16) &&& 0xFF, (ms >>> 8) &&& 0xFF, ms &&& 0xFF] &&&
    ((1 <<< ENCODED_CRC_BITS) - 1)

/-- The `k` low-order bits of `n`, most significant first — the row-major
bit sequence a 5x5 grid renders for the 25-bit word `n` (with `k = 25`). -/
def natBits (n : Nat) : Nat → List Nat
  | 0 => []
  | k + 1 => natBits (n >>> 1) k ++ [n &&& 1]

/-- The row-major bit grid that renders payload `P` in the first 20 cells
and checksum `c` in the last 5 cells: the 25 bits of `P * 2^5 + c`,
most significant first. -/
def encodedGridBits (P c : Nat) : List Nat :=
  natBits (P * 2 ^ ENCODED_CRC_BITS + c) ENCODED_TOTAL_BITS

/-- Mirrors the frame loop of `run_template_matching_on_video` (source
lines 339-353).  Opening the video and reading/cropping frames is external
I/O; the input is the bit-sampled cropped region of each successfully read
frame in read order, so entry `i` of the list receives `frame_index = i`
exactly as the enumerating loop does.  The per-cell darkness metrics
belong to the abstracted image stage, so `digit_match_metrics` is empty
in this model. -/
def run_template_matching_on_video (cropped_bit_frames : List (List Nat)) :
    List FrameOcrResult :=
  cropped_bit_frames.enum.map (fun p =>
    { frame_index := (p.1 : Int)
      ms := (decode_encoded_overlay_ms p.2).map (fun n => (n : Int))
      digit_match_metrics := [] })

section BitGridLemmas

lemma two_mul_or_one (m : Nat) : 2 * m ||| 1 = 2 * m + 1 := by
  apply Nat.eq_of_testBit_eq
  intro i
  cases i with
  | zero => simp [Nat.testBit_or, Nat.testBit_zero]; omega
  | succ j =>
      rw [Nat.testBit_or, Nat.testBit_succ, Nat.testBit_succ, Nat.testBit_succ]
      have h1 : (2 * m) / 2 = m := by omega
      have h2 : (2 * m + 1) / 2 = m := by omega
      have h3 : (1 : Nat) / 2 = 0 := by omega
      rw [h1, h2, h3]
      simp

lemma natBits_length (n k : Nat) : (natBits n k).length = k := by
  induction k generalizing n with
  | zero => rfl
  | succ k ih => simp [natBits, ih]

lemma foldl_natBits (k : Nat) : ∀ n : Nat,
    (natBits n k).foldl (fun acc bit => (acc <<< 1) ||| bit) 0 = n % 2 ^ k := by
  induction k with
  | zero => intro n; simp [natBits, Nat.mod_one]
  | succ k ih =>
      intro n
      rw [natBits, List.foldl_append, ih (n >>> 1)]
      show ((n >>> 1) % 2 ^ k) <<< 1 ||| (n &&& 1) = n % 2 ^ (k + 1)
      rw [Nat.shiftRight_one, Nat.and_one_is_mod, Nat.shiftLeft_eq, pow_one]
      have hdiv : n / 2 % 2 ^ k = n % (2 * 2 ^ k) / 2 :=
        (Nat.mod_mul_right_div_self n 2 (2 ^ k)).symm
      have hmod : n % 2 = n % (2 * 2 ^ k) % 2 :=
        (Nat.mod_mod_of_dvd n ⟨2 ^ k, rfl⟩).symm
      have hpow : 2 * 2 ^ k = 2 ^ (k + 1) := by rw [pow_succ]; ring
      have hor : ∀ m r : Nat, r ≤ 1 → m * 2 ||| r = 2 * m + r := by
        intro m r hr
        interval_cases r
        · simp [Nat.mul_comm]
        · rw [Nat.mul_comm, two_mul_or_one]
      rw [hor _ _ (by omega), hdiv, hmod, ← hpow]
      have := Nat.mod_lt n (show 0 < 2 * 2 ^ k by positivity)
      omega

lemma decode_encoded_overlay_ms_le (bits : List Nat) (n : Nat)
    (h : decode_encoded_overlay_ms bits = some n) : n ≤ 2 ^ 20 - 1 := by
  unfold decode_encoded_overlay_ms at h
  split at h
  · exact absurd h (by simp)
  · simp only at h
    split at h
    · exact absurd h (by simp)
    · next hguard =>
        split at h
        · exact absurd h (by simp)
        · have hn := Option.some.inj h
          rw [← hn]
          have : (1 <<< ENCODED_DATA_BITS) - 1 = 2 ^ 20 - 1 := rfl
          omega

end BitGridLemmas

/-- C1: round-trip correctness of the bit-grid decoder.  For every payload
`P` in `[0, 2^20 - 1]` rendered as the row-major 5x5 bit grid whose first
20 bits are `P` and last 5 bits are a checksum `c`: if `c` equals the low
five bits of the CRC-32 (polynomial 0xEDB88320, reflected, initial value
all-ones, final XOR all-ones) of the three big-endian payload bytes, the
decoder returns exactly `P`; if the received checksum differs from that
expected checksum, it returns `none`. -/
theorem decode_encoded_overlay_ms_roundtrip :
    ∀ P c : Nat, P ≤ 2 ^ 20 - 1 → c < 2 ^ 5 →
      (c = expectedCrc5 P →
        decode_encoded_overlay_ms (encodedGridBits P c) = some P) ∧
      (c ≠ expectedCrc5 P →
        decode_encoded_overlay_ms (encodedGridBits P c) = none) := by
  intro P c hP hc
  have h20 : (2 : Nat) ^ 20 = 1048576 := by norm_num
  have h5 : (2 : Nat) ^ 5 = 32 := by norm_num
  have h25 : (2 : Nat) ^ 25 = 33554432 := by norm_num
  have hlen : (encodedGridBits P c).length = ENCODED_TOTAL_BITS :=
    natBits_length _ _
  have hword : P * 2 ^ ENCODED_CRC_BITS + c < 2 ^ 25 := by
    show P * 2 ^ 5 + c < 2 ^ 25
    omega
  have hfold : ((encodedGridBits P c).take ENCODED_TOTAL_BITS).foldl
      (fun acc bit => (acc <<< 1) ||| bit) 0 = P * 2 ^ 5 + c := by
    rw [← hlen, List.take_length, encodedGridBits, foldl_natBits]
    show (P * 2 ^ 5 + c) % 2 ^ 25 = P * 2 ^ 5 + c
    exact Nat.mod_eq_of_lt hword
  have hrecv : (P * 2 ^ 5 + c) &&& ((1 <<< ENCODED_CRC_BITS) - 1) = c := by
    have hmask : (1 <<< ENCODED_CRC_BITS) - 1 = 2 ^ 5 - 1 := rfl
    rw [hmask, Nat.and_pow_two_sub_one_eq_mod]
    omega
  have helapsed : (P * 2 ^ 5 + c) >>> ENCODED_CRC_BITS = P := by
    show (P * 2 ^ 5 + c) >>> 5 = P
    rw [Nat.shiftRight_eq_div_pow]
    omega
  have hnotlen : ¬ (encodedGridBits P c).length < ENCODED_TOTAL_BITS := by
    rw [hlen]
    omega
  have hguard : ¬ P > (1 <<< ENCODED_DATA_BITS) - 1 := by
    have : (1 <<< ENCODED_DATA_BITS) - 1 = 2 ^ 20 - 1 := rfl
    omega
  constructor
  · intro hcrc
    unfold decode_encoded_overlay_ms
    simp only [hfold, hrecv, helapsed, if_neg hnotlen, if_neg hguard]
    rw [if_neg]
    rw [not_ne_iff]
    exact hcrc
  · intro hcrc
    unfold decode_encoded_overlay_ms
    simp only [hfold, hrecv, helapsed, if_neg hnotlen, if_neg hguard]
    rw [if_pos]
    exact hcrc

/-- Witness for C1: the payload 54321 (the value the repository test
exercises) paired with its correct checksum decodes back to 54321, and
paired with a wrong checksum (the correct one XOR 1) decodes to `none`. -/
theorem decode_encoded_overlay_ms_roundtrip_witness :
    decode_encoded_overlay_ms (encodedGridBits 54321 (expectedCrc5 54321)) =
      some 54321 :=
  (decode_encoded_overlay_ms_roundtrip 54321 (expectedCrc5 54321)
    (by norm_num) (by decide)).1 rfl

/-- A correctly checksummed grid for the payload 1000000, which lies inside
the 20-bit range accepted by the decoder but above the 999999 bound the
spec states for `FrameOcrResult` values. -/
def overflowGridBits : List Nat := encodedGridBits 1000000 (expectedCrc5 1000000)

set_option maxRecDepth 100000

/-- C4 counterexample: the per-frame decoding pass can produce an `ms`
value above 999999.  Decoding a one-frame video whose overlay grid encodes
the payload 1000000 with its correct checksum yields `ms = 1000000`, which
exceeds the claimed bound (1000000 ≤ 2^20 - 1 = 1048575, so the decoder
range check accepts it). -/
theorem run_template_matching_ms_counterexample :
    (run_template_matching_on_video [overflowGridBits]).map (fun r => r.ms) =
      [some 1000000] ∧ ¬ ((1000000 : Int) ≤ 999999) :=
  ⟨by decide, by decide⟩

/-- C4 (amended): every `ms` value produced by the per-frame decoding pass
`run_template_matching_on_video` (which decodes via
`decode_encoded_overlay_ms`) is either absent or a non-negative integer
at most `2^20 - 1 = 1048575` — the decoder's actual range check — rather
than at most 999999 as claimed. -/
theorem run_template_matching_ms_range :
    ∀ (cropped_bit_frames : List (List Nat)) (r : FrameOcrResult) (v : Int),
      r ∈ run_template_matching_on_video cropped_bit_frames →
      r.ms = some v → 0 ≤ v ∧ v ≤ 2 ^ 20 - 1 := by
  intro frames r v hr hv
  obtain ⟨p, _, hp⟩ := List.mem_map.mp hr
  rw [← hp] at hv
  change (decode_encoded_overlay_ms p.2).map (fun n => (n : Int)) = some v at hv
  cases hms : decode_encoded_overlay_ms p.2 with
  | none => rw [hms] at hv; exact absurd hv (by simp)
  | some n =>
      rw [hms] at hv
      have hnv : (n : Int) = v := by simpa using hv
      have hle := decode_encoded_overlay_ms_le p.2 n hms
      have h20n : (2 : Nat) ^ 20 - 1 = 1048575 := by norm_num
      have h20z : (2 : Int) ^ 20 - 1 = 1048575 := by norm_num
      omega

/-- Witness for C4: decoding the overflow grid above, frame 0 carries
`ms = 1000000`, and the amended bounds hold for it. -/
theorem run_template_matching_ms_range_witness :
    (0 : Int) ≤ 1000000 ∧ (1000000 : Int) ≤ 2 ^ 20 - 1 :=
  run_template_matching_ms_range [overflowGridBits]
    ⟨0, some 1000000, []⟩ 1000000
    (by
      rw [show run_template_matching_on_video [overflowGridBits] =
        [⟨0, some 1000000, []⟩] from rfl]
      exact List.mem_singleton.mpr rfl)
    rfl

/-- Mirrors `_normalize_similarity_metric` (source lines 118-121): clamp a
score into `[0, 1]`.  The `np.isfinite` guard maps NaN and infinities to
0.0; those values have no counterpart in exact rational arithmetic, so the
model keeps the clamping branch, which is the one every finite float
takes. -/
def _normalize_similarity_metric (score : ℚ) : ℚ := max 0 (min 1 score)

/-- Mirrors `_average_digit_metric` (source lines 197-201): drop the
absent per-digit metrics (they are skipped, not counted as zeroes),
return 0.0 when nothing is present, otherwise clamp the mean of the
present metrics. -/
def _average_digit_metric (metrics : List (Option ℚ)) : ℚ :=
  let present_metrics := metrics.filterMap id
  if present_metrics = [] then 0
  else _normalize_similarity_metric (present_metrics.sum / present_metrics.length)

/-- Mirrors `_best_digit_match` (source lines 204-215).  The pixel-level
`_compute_digit_similarity` (Otsu binarisation, black border, resize, mean
absolute difference) is external image arithmetic and is abstracted as the
parameter `sim`; the loop over `templates.items()` is a fold over the
template association list in iteration order.  The source updates its
running best on `similarity >= best_similarity`, starting from
`(None, 0.0)`. -/
def _best_digit_match {Img : Type} (sim : Img → Img → ℚ) (digit_image : Img)
    (templates : List (String × Img)) : Option String × ℚ :=
  templates.foldl (fun best t =>
    let similarity := sim digit_image t.2
    if best.2 ≤ similarity then (some t.1, similarity) else best)
    (none, 0)

/-- C8: the aggregate confidence score is always inside `[0, 1]`, whatever
rational values (inside or outside that range) the per-digit metrics take;
and an absent metric is skipped rather than averaged in as zero (prepending
an absent entry leaves the aggregate unchanged). -/
theorem average_digit_metric_in_unit_interval :
    ∀ metrics : List (Option ℚ),
      (0 ≤ _average_digit_metric metrics ∧ _average_digit_metric metrics ≤ 1) ∧
      _average_digit_metric (none :: metrics) = _average_digit_metric metrics := by
  intro metrics
  refine ⟨?_, ?_⟩
  · unfold _average_digit_metric
    simp only
    split
    · norm_num
    · unfold _normalize_similarity_metric
      constructor
      · exact le_max_left 0 _
      · exact max_le (by norm_num) (min_le_left 1 _)
  · unfold _average_digit_metric
    simp

section BestDigitMatchLemmas

variable {Img : Type}

lemma best_fold_le (sim : Img → Img → ℚ) (digit_image : Img) (s : ℚ) :
    ∀ (l : List (String × Img)) (b : Option String × ℚ), b.2 ≤ s →
      (∀ u ∈ l, sim digit_image u.2 ≤ s) →
      (l.foldl (fun best t =>
        let similarity := sim digit_image t.2
        if best.2 ≤ similarity then (some t.1, similarity) else best) b).2 ≤ s := by
  intro l
  induction l with
  | nil => intro b hb _; exact hb
  | cons u rest ih =>
      intro b hb hl
      rw [List.foldl_cons]
      apply ih
      · by_cases hcase : b.2 ≤ sim digit_image u.2
        · simpa [hcase] using hl u (List.mem_cons_self u rest)
        · simpa [hcase] using hb
      · intro w hw
        exact hl w (List.mem_cons_of_mem u hw)

lemma best_fold_fixed (sim : Img → Img → ℚ) (digit_image : Img) :
    ∀ (l : List (String × Img)) (b : Option String × ℚ),
      (∀ u ∈ l, sim digit_image u.2 < b.2) →
      l.foldl (fun best t =>
        let similarity := sim digit_image t.2
        if best.2 ≤ similarity then (some t.1, similarity) else best) b = b := by
  intro l
  induction l with
  | nil => intro b _; rfl
  | cons u rest ih =>
      intro b hl
      rw [List.foldl_cons]
      have hu : ¬ b.2 ≤ sim digit_image u.2 :=
        not_le.mpr (hl u (List.mem_cons_self u rest))
      simp only [hu, if_false]
      exact ih b (fun w hw => hl w (List.mem_cons_of_mem u hw))

end BestDigitMatchLemmas

/-- C9 counterexample: ties are broken by the LAST-seen template, not the
first-seen one as claimed — the source updates its best on `>=`.  With two
templates that score identically against the glyph, `_best_digit_match`
returns the second template `"1"`; the claimed first-seen tie-break would
return `"0"`. -/
theorem best_digit_match_tie_counterexample :
    (_best_digit_match (fun _ _ => (1 : ℚ) / 2) () [("0", ()), ("1", ())]).1 =
      some "1" ∧ some "1" ≠ (some "0" : Option String) := by
  constructor
  · unfold _best_digit_match
    rw [List.foldl_cons, List.foldl_cons, List.foldl_nil]
    simp only
    rw [if_pos (by norm_num : (0 : ℚ) ≤ 1 / 2), if_pos (le_refl ((1 : ℚ) / 2))]
  · simp

/-- C9 (amended): `_best_digit_match` selects the template with the highest
similarity, and when several templates tie for the highest similarity it
selects the LAST-seen one in the iteration order over the available
templates (the `>=` update lets a later equal score replace an earlier
one).  Formally: if `t` scores at least every template before it and
strictly above every template after it (and its score is non-negative, as
every `_compute_digit_similarity` output is, being clamped to `[0,1]`),
then the fold returns `t` and its similarity. -/
theorem best_digit_match_argmax :
    ∀ {Img : Type} (sim : Img → Img → ℚ) (digit_image : Img)
      (l₁ : List (String × Img)) (t : String × Img) (l₂ : List (String × Img)),
      0 ≤ sim digit_image t.2 →
      (∀ u ∈ l₁, sim digit_image u.2 ≤ sim digit_image t.2) →
      (∀ u ∈ l₂, sim digit_image u.2 < sim digit_image t.2) →
      _best_digit_match sim digit_image (l₁ ++ t :: l₂) =
        (some t.1, sim digit_image t.2) := by
  intro Img sim digit_image l₁ t l₂ h0 hbefore hafter
  unfold _best_digit_match
  rw [List.foldl_append, List.foldl_cons]
  have hb : (l₁.foldl (fun best t =>
      let similarity := sim digit_image t.2
      if best.2 ≤ similarity then (some t.1, similarity) else best)
      ((none : Option String), (0 : ℚ))).2 ≤ sim digit_image t.2 :=
    best_fold_le sim digit_image (sim digit_image t.2) l₁ (none, 0) h0 hbefore
  simp only [hb, if_true, if_pos hb]
  exact best_fold_fixed sim digit_image l₂ (some t.1, sim digit_image t.2) hafter

/-- Witness for C9 (amended): with similarity given by the template value
itself, the glyph scores `[0, 1, 1/2]` against the three templates, and
the fold returns the middle template `"1"` with score 1. -/
theorem best_digit_match_argmax_witness :
    _best_digit_match (fun _ t => t) (0 : ℚ) [("0", 0), ("1", 1), ("2", 1 / 2)] =
      (some "1", 1) :=
  best_digit_match_argmax (fun _ t => t) 0 [("0", 0)] ("1", 1) [("2", 1 / 2)]
    (by norm_num)
    (by intro u hu; simp at hu; rw [hu]; norm_num)
    (by intro u hu; simp at hu; rw [hu]; norm_num)

/-- A JSON-like value as stored in an action record.  Action logs are
JSON, and this covers the shapes `capture_action_screenshots` reads and
writes: numbers, strings, nested objects and null. -/
inductive JVal where
  | null : JVal
  | num (n : Int) : JVal
  | str (s : String) : JVal
  | obj (fields : List (String × JVal)) : JVal

/-- An action record: a Python dict modelled as an insertion-ordered
association list.  Python dict keys are unique; the operations below agree
with Python on every key-unique list. -/
abbrev ActionRec : Type := List (String × JVal)

/-- `action.get(key)`: the value at the (first) matching key, if any. -/
def dictGet (d : ActionRec) (key : String) : Option JVal :=
  (d.find? (fun p => p.1 = key)).map Prod.snd

/-- `d[key] = v` on a Python dict: replace the value in place when the key
exists (keeping its position), otherwise append the new pair at the end,
as insertion order dictates. -/
def dictSet (d : ActionRec) (key : String) (v : JVal) : ActionRec :=
  match d with
  | [] => [(key, v)]
  | p :: rest => if p.1 = key then (key, v) :: rest else p :: dictSet rest key v

/-- `action.get("timeSinceVideoStartNs") or 0` (source line 462): a missing
key, a JSON null and the number 0 are all falsy and give 0; any other
numeric value gives itself.  A non-numeric value would make the subsequent
division raise a TypeError in Python and does not occur in action logs;
the model reads it as 0. -/
def actionTimeNs (a : ActionRec) : Int :=
  match dictGet a "timeSinceVideoStartNs" with
  | some (JVal.num n) => n
  | _ => 0

/-- `int(round(t_ns / 1_000_000))` (source line 462).  Python `round` is
round-half-to-even; the float division is modelled as exact division of
the integer nanosecond count by 10^6 (the rounding error of the actual
double quotient is far below the half-millisecond granularity at stake).
Euclidean div/mod keep the fractional numerator `r` in `[0, 10^6)`. -/
def pyRoundNsToMs (ns : Int) : Int :=
  let f := Int.ediv ns 1000000
  let r := Int.emod ns 1000000
  if 2 * r < 1000000 then f
  else if 1000000 < 2 * r then f + 1
  else if Int.emod f 2 = 0 then f else f + 1

/-- The fallback name `f"step_{action.get('stepNumber', 'unknown')}"`
(source line 472), with Python str() applied to the looked-up value.  An
object-valued step number (whose stringification would be a dict repr)
does not occur in action logs and is rendered as the missing-key default
here. -/
def stepFallbackName (a : ActionRec) : String :=
  "step_" ++ (match dictGet a "stepNumber" with
    | some (JVal.num n) => toString n
    | some (JVal.str s) => s
    | some JVal.null => "None"
    | _ => "unknown")

/-- `action.get("actionId") or f"step_..."` (source line 472): a present,
truthy actionId is used (stringified when numeric); the falsy values — a
missing key, null, the empty string, the number 0 — fall back to the
step-number name.  (A dict-valued actionId, which Python would stringify
into a brace-laden file name, does not occur in action logs and falls back
here.) -/
def actionIdOf (a : ActionRec) : String :=
  match dictGet a "actionId" with
  | some (JVal.str s) => if s = "" then stepFallbackName a else s
  | some (JVal.num n) => if n = 0 then stepFallbackName a else toString n
  | _ => stepFallbackName a

/-- Mirrors `capture_action_screenshots` (source lines 452-494).
Directory creation and `cv2.imwrite` are filesystem I/O: each image write
is recorded as a (path, resolved frame index) pair in write order instead
of writing `frames[idx]` to disk, and the screenshots directory joins file
names with "/".  The returned list models `updated_actions`; the `Except`
propagates the `ValueError` that `find_frame_index` could raise (it never
fires here because both mode strings are the valid literals). -/
def capture_action_screenshots (actions : List ActionRec)
    (frame_results : List FrameOcrResult) (screenshots_dir : String) :
    Except String (List ActionRec × List (String × Int)) :=
  match actions with
  | [] => Except.ok ([], [])
  | action :: rest => do
      let target_ms := pyRoundNsToMs (actionTimeNs action)
      let before_target := max (target_ms - 300) 0
      let at_target := target_ms
      let after_target := target_ms + 800
      let before_idx ← find_frame_index frame_results before_target "at_or_before"
      let at_idx ← find_frame_index frame_results at_target "at_or_before"
      let after_idx ← find_frame_index frame_results after_target "at_or_after"
      let action_id := actionIdOf action
      let before_path := screenshots_dir ++ "/" ++ action_id ++ "_before.png"
      let at_path := screenshots_dir ++ "/" ++ action_id ++ "_at.png"
      let after_path := screenshots_dir ++ "/" ++ action_id ++ "_after.png"
      let action_copy := dictSet (dictSet action "screenshotTimesMs"
        (JVal.obj [("before", JVal.num before_target), ("at", JVal.num at_target),
          ("after", JVal.num after_target)]))
        "screenshots"
        (JVal.obj [("before", JVal.str before_path), ("at", JVal.str at_path),
          ("after", JVal.str after_path)])
      let rest_result ← capture_action_screenshots rest frame_results screenshots_dir
      Except.ok (action_copy :: rest_result.1,
        (before_path, before_idx) :: (at_path, at_idx) ::
          (after_path, after_idx) :: rest_result.2)

section CaptureLemmas

lemma except_bind_ok {ε α β : Type} (a : α) (f : α → Except ε β) :
    ((Except.ok a : Except ε α) >>= f) = f a := rfl

lemma find_frame_index_before_isOk (fr : List FrameOcrResult) (t : Int) :
    ∃ i, find_frame_index fr t "at_or_before" = Except.ok i := by
  cases hh : (presentPairs fr).head? with
  | none => exact ⟨0, by unfold find_frame_index; rw [hh]⟩
  | some first => exact ⟨_, find_frame_index_before_eq fr t first hh⟩

lemma find_frame_index_after_isOk (fr : List FrameOcrResult) (t : Int) :
    ∃ i, find_frame_index fr t "at_or_after" = Except.ok i := by
  cases hh : (presentPairs fr).head? with
  | none => exact ⟨0, by unfold find_frame_index; rw [hh]⟩
  | some first => exact ⟨_, find_frame_index_after_eq fr t first hh⟩

lemma dictGet_cons (p : String × JVal) (rest : ActionRec) (key : String) :
    dictGet (p :: rest) key = if p.1 = key then some p.2 else dictGet rest key := by
  by_cases hp : p.1 = key
  · simp [dictGet, List.find?, hp]
  · simp [dictGet, List.find?, hp]

lemma dictGet_dictSet_self (d : ActionRec) (k : String) (v : JVal) :
    dictGet (dictSet d k v) k = some v := by
  induction d with
  | nil => simp [dictSet, dictGet_cons]
  | cons p rest ih =>
      by_cases hp : p.1 = k
      · simp [dictSet, hp, dictGet_cons]
      · simp only [dictSet, if_neg hp]
        rw [dictGet_cons, if_neg hp]
        exact ih

lemma dictGet_dictSet_ne (d : ActionRec) (k : String) (v : JVal) (key : String)
    (h : key ≠ k) : dictGet (dictSet d k v) key = dictGet d key := by
  induction d with
  | nil => simp [dictGet, dictSet, dictGet_cons, Ne.symm h]
  | cons p rest ih =>
      by_cases hp : p.1 = k
      · have hpk : ¬ p.1 = key := by rw [hp]; exact Ne.symm h
        simp only [dictSet, if_pos hp]
        rw [dictGet_cons, dictGet_cons, if_neg hpk, if_neg (Ne.symm h)]
      · simp only [dictSet, if_neg hp]
        rw [dictGet_cons, dictGet_cons, ih]

lemma keys_dictSet_of_absent (d : ActionRec) (k : String) (v : JVal) :
    dictGet d k = none →
    (dictSet d k v).map Prod.fst = d.map Prod.fst ++ [k] := by
  induction d with
  | nil => intro _; simp [dictSet]
  | cons p rest ih =>
      intro h
      have hp : ¬ p.1 = k := by
        intro hpk
        rw [dictGet_cons, if_pos hpk] at h
        exact Option.noConfusion h
      rw [dictGet_cons, if_neg hp] at h
      simp [dictSet, if_neg hp, ih h]

lemma except_bind_error {ε α β : Type} (e : ε) (f : α → Except ε β) :
    ((Except.error e : Except ε α) >>= f) = Except.error e := rfl

lemma forall₂_get? {α β : Type} {R : α → β → Prop} {l1 : List α} {l2 : List β}
    (h : List.Forall₂ R l1 l2) :
    ∀ (i : Nat) (a : α) (b : β), l1.get? i = some a → l2.get? i = some b → R a b := by
  induction h with
  | nil => intro i a b h1 _; simp at h1
  | cons hr _ ih =>
      intro i a b h1 h2
      cases i with
      | zero => exact (Option.some.inj h1) ▸ (Option.some.inj h2) ▸ hr
      | succ j => exact ih j a b h1 h2

lemma capture_shape (actions : List ActionRec) (fr : List FrameOcrResult)
    (dir : String) :
    ∀ (out : List ActionRec) (wr : List (String × Int)),
      capture_action_screenshots actions fr dir = Except.ok (out, wr) →
      List.Forall₂ (fun x y => ∃ v1 v2,
        y = dictSet (dictSet x "screenshotTimesMs" v1) "screenshots" v2)
        actions out := by
  induction actions with
  | nil =>
      intro out wr h
      simp only [capture_action_screenshots] at h
      obtain ⟨hout, _⟩ := Prod.mk.injEq .. ▸ Except.ok.inj h
      rw [← hout]
      exact List.Forall₂.nil
  | cons a rest ih =>
      intro out wr h
      obtain ⟨bi, hbi⟩ := find_frame_index_before_isOk fr
        (max (pyRoundNsToMs (actionTimeNs a) - 300) 0)
      obtain ⟨ai, hai⟩ := find_frame_index_before_isOk fr
        (pyRoundNsToMs (actionTimeNs a))
      obtain ⟨fi, hfi⟩ := find_frame_index_after_isOk fr
        (pyRoundNsToMs (actionTimeNs a) + 800)
      simp only [capture_action_screenshots, hbi, hai, hfi, except_bind_ok] at h
      cases hrec : capture_action_screenshots rest fr dir with
      | error e =>
          rw [hrec, except_bind_error] at h
          exact Except.noConfusion h
      | ok pr =>
          rw [hrec, except_bind_ok] at h
          have h2 := Except.ok.inj h
          have hout : _ :: pr.1 = out := congrArg Prod.fst h2
          rw [← hout]
          exact List.Forall₂.cons ⟨_, _, rfl⟩ (ih pr.1 pr.2 hrec)

lemma pyRoundNsToMs_nearest (ns : Int) :
    |(pyRoundNsToMs ns : ℚ) - (ns : ℚ) / 1000000| ≤ 1 / 2 := by
  have h0 : (0 : Int) ≤ Int.emod ns 1000000 := Int.emod_nonneg ns (by norm_num)
  have h1 : Int.emod ns 1000000 < 1000000 := Int.emod_lt_of_pos ns (by norm_num)
  have hq : (ns : ℚ) / 1000000 =
      (Int.ediv ns 1000000 : ℚ) + (Int.emod ns 1000000 : ℚ) / 1000000 := by
    have hsplit : (ns : ℚ) =
        1000000 * (Int.ediv ns 1000000 : ℚ) + (Int.emod ns 1000000 : ℚ) := by
      exact_mod_cast (Int.ediv_add_emod ns 1000000).symm
    rw [hsplit]
    ring
  simp only [pyRoundNsToMs]
  rw [hq]
  set f : Int := Int.ediv ns 1000000 with hf
  set r : Int := Int.emod ns 1000000 with hr
  split_ifs with hlt hgt hev
  · have heq : (f : ℚ) - ((f : ℚ) + (r : ℚ) / 1000000) = -((r : ℚ) / 1000000) := by
      ring
    rw [heq, abs_neg, abs_of_nonneg (by positivity)]
    have hrq : (r : ℚ) ≤ 500000 := by exact_mod_cast (by omega : r ≤ 500000)
    rw [div_le_iff₀ (by norm_num : (0 : ℚ) < 1000000)]
    linarith
  · have heq : ((f + 1 : Int) : ℚ) - ((f : ℚ) + (r : ℚ) / 1000000) =
        1 - (r : ℚ) / 1000000 := by
      push_cast
      ring
    have hr1 : (r : ℚ) / 1000000 ≤ 1 := by
      rw [div_le_one (by norm_num : (0 : ℚ) < 1000000)]
      exact_mod_cast le_of_lt h1
    rw [heq, abs_of_nonneg (by linarith)]
    have hrq : (500000 : ℚ) ≤ (r : ℚ) := by
      exact_mod_cast (by omega : (500000 : Int) ≤ r)
    have hhalf : (1 : ℚ) / 2 ≤ (r : ℚ) / 1000000 := by
      rw [div_le_div_iff₀ (by norm_num) (by norm_num)]
      linarith
    linarith
  · have hr2 : r = 500000 := by omega
    have heq : (f : ℚ) - ((f : ℚ) + (r : ℚ) / 1000000) = -(1 / 2 : ℚ) := by
      rw [hr2]
      push_cast
      ring
    rw [heq, abs_neg, abs_of_nonneg (by norm_num)]
  · have hr2 : r = 500000 := by omega
    have heq : ((f + 1 : Int) : ℚ) - ((f : ℚ) + (r : ℚ) / 1000000) = (1 / 2 : ℚ) := by
      rw [hr2]
      push_cast
      ring
    rw [heq, abs_of_nonneg (by norm_num)]

end CaptureLemmas

/-- C5: for every action, `capture_action_screenshots` computes
`target_ms` from the nanosecond timestamp as its nearest millisecond (the
first inner conjunct: the computed value differs from the exact quotient
`t_ns / 10^6` by at most one half), takes the three query points
`before = max(target_ms - 300, 0)`, `at = target_ms`,
`after = target_ms + 800`, resolves them via `find_frame_index` with modes
`at_or_before`, `at_or_before` and `at_or_after` respectively (the three
recorded image writes pair those resolved indices with the before/at/after
file names), and stores the three query points on the returned record.
The final conjunct checks the spec example: an action at t = 500 ms yields
query targets 200, 500 and 1300. -/
theorem capture_action_screenshots_targets :
    (∀ (a : ActionRec) (fr : List FrameOcrResult) (dir : String),
      ∃ (out : ActionRec) (wr : List (String × Int)) (bi ai fi : Int),
        capture_action_screenshots [a] fr dir = Except.ok ([out], wr) ∧
        |(pyRoundNsToMs (actionTimeNs a) : ℚ) - (actionTimeNs a : ℚ) / 1000000| ≤
          1 / 2 ∧
        find_frame_index fr (max (pyRoundNsToMs (actionTimeNs a) - 300) 0)
          "at_or_before" = Except.ok bi ∧
        find_frame_index fr (pyRoundNsToMs (actionTimeNs a))
          "at_or_before" = Except.ok ai ∧
        find_frame_index fr (pyRoundNsToMs (actionTimeNs a) + 800)
          "at_or_after" = Except.ok fi ∧
        dictGet out "screenshotTimesMs" = some (JVal.obj
          [("before", JVal.num (max (pyRoundNsToMs (actionTimeNs a) - 300) 0)),
           ("at", JVal.num (pyRoundNsToMs (actionTimeNs a))),
           ("after", JVal.num (pyRoundNsToMs (actionTimeNs a) + 800))]) ∧
        wr = [(dir ++ "/" ++ actionIdOf a ++ "_before.png", bi),
              (dir ++ "/" ++ actionIdOf a ++ "_at.png", ai),
              (dir ++ "/" ++ actionIdOf a ++ "_after.png", fi)]) ∧
    (pyRoundNsToMs (actionTimeNs [("timeSinceVideoStartNs", JVal.num 500000000)]) =
        500 ∧
      max ((500 : Int) - 300) 0 = 200 ∧ (500 : Int) + 800 = 1300) := by
  constructor
  · intro a fr dir
    obtain ⟨bi, hbi⟩ := find_frame_index_before_isOk fr
      (max (pyRoundNsToMs (actionTimeNs a) - 300) 0)
    obtain ⟨ai, hai⟩ := find_frame_index_before_isOk fr
      (pyRoundNsToMs (actionTimeNs a))
    obtain ⟨fi, hfi⟩ := find_frame_index_after_isOk fr
      (pyRoundNsToMs (actionTimeNs a) + 800)
    refine ⟨dictSet (dictSet a "screenshotTimesMs" (JVal.obj
        [("before", JVal.num (max (pyRoundNsToMs (actionTimeNs a) - 300) 0)),
         ("at", JVal.num (pyRoundNsToMs (actionTimeNs a))),
         ("after", JVal.num (pyRoundNsToMs (actionTimeNs a) + 800))]))
        "screenshots" (JVal.obj
        [("before", JVal.str (dir ++ "/" ++ actionIdOf a ++ "_before.png")),
         ("at", JVal.str (dir ++ "/" ++ actionIdOf a ++ "_at.png")),
         ("after", JVal.str (dir ++ "/" ++ actionIdOf a ++ "_after.png"))]),
      [(dir ++ "/" ++ actionIdOf a ++ "_before.png", bi),
       (dir ++ "/" ++ actionIdOf a ++ "_at.png", ai),
       (dir ++ "/" ++ actionIdOf a ++ "_after.png", fi)],
      bi, ai, fi, ?_, pyRoundNsToMs_nearest _, hbi, hai, hfi, ?_, rfl⟩
    · simp only [capture_action_screenshots, hbi, hai, hfi, except_bind_ok]
    · rw [dictGet_dictSet_ne _ _ _ _ (by decide :
        ("screenshotTimesMs" : String) ≠ "screenshots"),
        dictGet_dictSet_self]
  · exact ⟨by decide, by decide, by decide⟩

/-- C6 counterexample: a returned record does not preserve every original
field — an input record that already carries a `screenshotTimesMs` field
has it overwritten, because the augmentation assigns into the copied dict
unconditionally.  Here the original value 7 is replaced by the computed
times object. -/
theorem capture_action_screenshots_overwrite_counterexample :
    (capture_action_screenshots [[("screenshotTimesMs", JVal.num 7)]] []
        "shots").map (fun r => r.1.map (fun a => dictGet a "screenshotTimesMs")) =
      Except.ok [some (JVal.obj [("before", JVal.num 0), ("at", JVal.num 0),
        ("after", JVal.num 800)])] ∧
    JVal.obj [("before", JVal.num 0), ("at", JVal.num 0),
      ("after", JVal.num 800)] ≠ JVal.num 7 :=
  ⟨rfl, fun h => JVal.noConfusion h⟩

/-- C6 (amended): `capture_action_screenshots` never mutates its input (in
this pure embedding the input list is untouched by construction; the
Python source copies each dict with `dict(action)` before assigning).
Each returned record preserves every original field other than the two
names `screenshotTimesMs` and `screenshots` (conjunct 2), always carries
both of those fields (conjunct 3), and when the input record contains
neither name — the case for real action logs — all original fields are
preserved and exactly those two fields are appended, in that order
(conjunct 4); the output has one record per input record (conjunct 1). -/
theorem capture_action_screenshots_augments :
    (∀ (actions : List ActionRec) (fr : List FrameOcrResult) (dir : String)
        (out : List ActionRec) (wr : List (String × Int)),
        capture_action_screenshots actions fr dir = Except.ok (out, wr) →
        out.length = actions.length) ∧
    (∀ (actions : List ActionRec) (fr : List FrameOcrResult) (dir : String)
        (out : List ActionRec) (wr : List (String × Int)) (k : Nat)
        (a a' : ActionRec) (key : String),
        capture_action_screenshots actions fr dir = Except.ok (out, wr) →
        actions.get? k = some a → out.get? k = some a' →
        key ≠ "screenshotTimesMs" → key ≠ "screenshots" →
        dictGet a' key = dictGet a key) ∧
    (∀ (actions : List ActionRec) (fr : List FrameOcrResult) (dir : String)
        (out : List ActionRec) (wr : List (String × Int)) (k : Nat)
        (a a' : ActionRec),
        capture_action_screenshots actions fr dir = Except.ok (out, wr) →
        actions.get? k = some a → out.get? k = some a' →
        (dictGet a' "screenshotTimesMs").isSome = true ∧
        (dictGet a' "screenshots").isSome = true) ∧
    (∀ (actions : List ActionRec) (fr : List FrameOcrResult) (dir : String)
        (out : List ActionRec) (wr : List (String × Int)) (k : Nat)
        (a a' : ActionRec),
        capture_action_screenshots actions fr dir = Except.ok (out, wr) →
        actions.get? k = some a → out.get? k = some a' →
        dictGet a "screenshotTimesMs" = none → dictGet a "screenshots" = none →
        a'.map Prod.fst = a.map Prod.fst ++ ["screenshotTimesMs", "screenshots"]) := by
  refine ⟨?_, ?_, ?_, ?_⟩
  · intro actions fr dir out wr h
    exact (capture_shape actions fr dir out wr h).length_eq.symm
  · intro actions fr dir out wr k a a' key h hk hk' h1 h2
    obtain ⟨v1, v2, ha'⟩ := forall₂_get? (capture_shape actions fr dir out wr h)
      k a a' hk hk'
    rw [ha', dictGet_dictSet_ne _ _ _ _ h2, dictGet_dictSet_ne _ _ _ _ h1]
  · intro actions fr dir out wr k a a' h hk hk'
    obtain ⟨v1, v2, ha'⟩ := forall₂_get? (capture_shape actions fr dir out wr h)
      k a a' hk hk'
    constructor
    · rw [ha', dictGet_dictSet_ne _ _ _ _ (by decide :
        ("screenshotTimesMs" : String) ≠ "screenshots"), dictGet_dictSet_self]
      rfl
    · rw [ha', dictGet_dictSet_self]
      rfl
  · intro actions fr dir out wr k a a' h hk hk' hnone1 hnone2
    obtain ⟨v1, v2, ha'⟩ := forall₂_get? (capture_shape actions fr dir out wr h)
      k a a' hk hk'
    have houter : dictGet (dictSet a "screenshotTimesMs" v1) "screenshots" = none := by
      rw [dictGet_dictSet_ne _ _ _ _ (by decide :
        ("screenshots" : String) ≠ "screenshotTimesMs")]
      exact hnone2
    rw [ha', keys_dictSet_of_absent _ _ _ houter,
      keys_dictSet_of_absent _ _ _ hnone1, List.append_assoc]
    rfl

/-- Witness for C6 (amended): a one-action run over the record
`{"foo": 1}` — the output record keeps the original `foo` field unchanged
(field preservation instantiated at index 0 and key `"foo"`). -/
theorem capture_action_screenshots_augments_witness :
    dictGet [("foo", JVal.num 1),
      ("screenshotTimesMs", JVal.obj [("before", JVal.num 0), ("at", JVal.num 0),
        ("after", JVal.num 800)]),
      ("screenshots", JVal.obj
        [("before", JVal.str "d/step_unknown_before.png"),
         ("at", JVal.str "d/step_unknown_at.png"),
         ("after", JVal.str "d/step_unknown_after.png")])] "foo" =
      dictGet [("foo", JVal.num 1)] "foo" :=
  capture_action_screenshots_augments.2.1 [[("foo", JVal.num 1)]] [] "d"
    [[("foo", JVal.num 1),
      ("screenshotTimesMs", JVal.obj [("before", JVal.num 0), ("at", JVal.num 0),
        ("after", JVal.num 800)]),
      ("screenshots", JVal.obj
        [("before", JVal.str "d/step_unknown_before.png"),
         ("at", JVal.str "d/step_unknown_at.png"),
         ("after", JVal.str "d/step_unknown_after.png")])]]
    [("d/step_unknown_before.png", 0), ("d/step_unknown_at.png", 0),
     ("d/step_unknown_after.png", 0)]
    0 [("foo", JVal.num 1)]
    [("foo", JVal.num 1),
      ("screenshotTimesMs", JVal.obj [("before", JVal.num 0), ("at", JVal.num 0),
        ("after", JVal.num 800)]),
      ("screenshots", JVal.obj
        [("before", JVal.str "d/step_unknown_before.png"),
         ("at", JVal.str "d/step_unknown_at.png"),
         ("after", JVal.str "d/step_unknown_after.png")])]
    "foo" rfl rfl rfl (by decide) (by decide)

/-- A Python float as produced by `float(str)`: either an exact finite
value (doubles are rationals; representation rounding is immaterial to the
claims), an infinity, or NaN. -/
inductive PyFloat where
  | finite (q : ℚ) : PyFloat
  | inf : PyFloat
  | neginf : PyFloat
  | nan : PyFloat
  deriving DecidableEq

/-- Mirrors the dataclass `OverlayTemplateStyle` (source lines 27-33) with
its field defaults.  The float-valued fields are `PyFloat` because the
source stores whatever `float()` produced (including infinities) when the
value passes its validity test. -/
structure OverlayTemplateStyle where
  digit_count : Int := 6
  font_size_px : PyFloat := PyFloat.finite (108 / 5)
  line_height : PyFloat := PyFloat.finite 1
  letter_spacing_em : PyFloat := PyFloat.finite (3 / 50)
  font_weight : Int := 700
  deriving DecidableEq

/-- Strip leading and trailing whitespace, as `str.strip()` and `float()`
do (modelled on ASCII whitespace). -/
def pyStripChars (cs : List Char) : List Char :=
  ((cs.dropWhile Char.isWhitespace).reverse.dropWhile Char.isWhitespace).reverse

/-- `str.endswith(u)` on character lists. -/
def charsEndWith (cs suf : List Char) : Bool :=
  if suf.length ≤ cs.length then cs.drop (cs.length - suf.length) == suf
  else false

def digitsToNat (ds : List Char) : Nat :=
  ds.foldl (fun acc c => 10 * acc + (c.toNat - 48)) 0

/-- The decimal part of Python's `float(str)` grammar:
`digits [. digits] [(e|E) [sign] digits]` with at least one mantissa
digit.  (Digit-group underscores and the overflow of huge finite literals
to infinity are not modelled; the claims only exercise ordinary literals
and the infinity keywords.) -/
def parseDecimalChars (cs : List Char) : Option ℚ :=
  let intPart := cs.takeWhile Char.isDigit
  let rest1 := cs.dropWhile Char.isDigit
  let fracPair : List Char × List Char :=
    match rest1 with
    | '.' :: r => (r.takeWhile Char.isDigit, r.dropWhile Char.isDigit)
    | _ => ([], rest1)
  if intPart = [] ∧ fracPair.1 = [] then none
  else
    let mantissa : ℚ := (digitsToNat intPart : ℚ) +
      (digitsToNat fracPair.1 : ℚ) / (10 : ℚ) ^ fracPair.1.length
    match fracPair.2 with
    | [] => some mantissa
    | e :: r =>
        if e = 'e' ∨ e = 'E' then
          let signedTail : Bool × List Char :=
            match r with
            | '+' :: r2 => (false, r2)
            | '-' :: r2 => (true, r2)
            | _ => (false, r)
          let ds := signedTail.2.takeWhile Char.isDigit
          if ds = [] ∨ signedTail.2.dropWhile Char.isDigit ≠ [] then none
          else some (if signedTail.1 then mantissa / (10 : ℚ) ^ digitsToNat ds
            else mantissa * (10 : ℚ) ^ digitsToNat ds)
        else none

/-- Python `float(str)`: strip, optional sign, then the case-insensitive
keywords `inf` / `infinity` / `nan` or a decimal literal; `none` models
the `ValueError` of an unparseable string. -/
def pyFloatOfString (s : String) : Option PyFloat :=
  let cs := pyStripChars s.toList
  let signSplit : Bool × List Char :=
    match cs with
    | '+' :: r => (false, r)
    | '-' :: r => (true, r)
    | _ => (false, cs)
  let lower := signSplit.2.map Char.toLower
  if lower = "inf".toList ∨ lower = "infinity".toList then
    some (if signSplit.1 then PyFloat.neginf else PyFloat.inf)
  else if lower = "nan".toList then some PyFloat.nan
  else
    match parseDecimalChars signSplit.2 with
    | some q => some (PyFloat.finite (if signSplit.1 then -q else q))
    | none => none

/-- Truncation toward zero, as Python `int()` does on a finite float. -/
def ratTrunc (q : ℚ) : Int := if 0 ≤ q then ⌊q⌋ else -⌊-q⌋

/-- `int(x)` on a Python float: truncation for finite values, and the two
exceptions Python raises otherwise — `ValueError` for NaN (which the
style loader catches) and `OverflowError` for an infinity (which it does
not). -/
def pyFloatToInt (f : PyFloat) : Except String Int :=
  match f with
  | PyFloat.finite q => Except.ok (ratTrunc q)
  | PyFloat.nan => Except.error "ValueError: cannot convert float NaN to integer"
  | PyFloat.inf =>
      Except.error "OverflowError: cannot convert float infinity to integer"
  | PyFloat.neginf =>
      Except.error "OverflowError: cannot convert float infinity to integer"

/-- Python ordering against a constant: comparisons with NaN are false,
infinity compares large. -/
def pyGe (f : PyFloat) (c : ℚ) : Bool :=
  match f with
  | PyFloat.finite q => decide (c ≤ q)
  | PyFloat.inf => true
  | PyFloat.neginf => false
  | PyFloat.nan => false

def pyGt (f : PyFloat) (c : ℚ) : Bool :=
  match f with
  | PyFloat.finite q => decide (c < q)
  | PyFloat.inf => true
  | PyFloat.neginf => false
  | PyFloat.nan => false

/-- Mirrors `_parse_css_number` (source lines 62-71): strip, check the
optional unit suffix, drop it, and parse the remainder as a float;
`none` both for a missing unit and for an unparseable number. -/
def _parse_css_number (value : String) (unit : Option String) : Option PyFloat :=
  let stripped := pyStripChars value.toList
  match unit with
  | some u =>
      if charsEndWith stripped u.toList then
        pyFloatOfString (String.mk (stripped.take (stripped.length - u.toList.length)))
      else none
  | none => pyFloatOfString (String.mk stripped)

/-- Mirrors `load_overlay_template_style` (source lines 74-108).  Reading
`recorder.ts` and the regular-expression scan for
`frameOverlay.style.<key> = <value>;` assignments are file I/O; the input
is `none` when the file is missing and otherwise the ordered list of
(key, value) matches the scan produced (the dict comprehension keeps the
LAST value of a repeated key).  The `try ... except ValueError` around
`int(float(raw))` for the font weight catches an unparseable string and
NaN but NOT the `OverflowError` an infinite value raises, and the
`int(width_ch)` call in the constructor can raise the same way; both
uncaught exceptions surface as `Except.error`, in source evaluation order
(the font-weight conversion runs before the constructor). -/
def load_overlay_template_style (source : Option (List (String × String))) :
    Except String OverlayTemplateStyle :=
  match source with
  | none => Except.ok ({} : OverlayTemplateStyle)
  | some styleMatches =>
      if styleMatches = [] then Except.ok ({} : OverlayTemplateStyle)
      else
        let style_values : String → String := fun key =>
          ((styleMatches.reverse.find? (fun p => p.1 = key)).map Prod.snd).getD ""
        let width_ch := _parse_css_number (style_values "width") (some "ch")
        let font_size_px := _parse_css_number (style_values "fontSize") (some "px")
        let line_height := _parse_css_number (style_values "lineHeight") none
        let letter_spacing_em :=
          _parse_css_number (style_values "letterSpacing") (some "em")
        do
        let font_weight ← (match pyFloatOfString (style_values "fontWeight") with
          | none => Except.ok (700 : Int)
          | some PyFloat.nan => Except.ok (700 : Int)
          | some f => pyFloatToInt f)
        let digit_count ← (match width_ch with
          | some f => if pyGe f 1 then pyFloatToInt f else Except.ok (6 : Int)
          | none => Except.ok (6 : Int))
        Except.ok
          { digit_count := digit_count
            font_size_px := (match font_size_px with
              | some f => if pyGt f 0 then f else PyFloat.finite (108 / 5)
              | none => PyFloat.finite (108 / 5))
            line_height := (match line_height with
              | some f => if pyGt f 0 then f else PyFloat.finite 1
              | none => PyFloat.finite 1)
            letter_spacing_em := (match letter_spacing_em with
              | some f => if pyGe f 0 then f else PyFloat.finite (3 / 50)
              | none => PyFloat.finite (3 / 50))
            font_weight := if font_weight > 0 then font_weight else 700 }

/-- C7: the claim that `load_overlay_template_style` never raises is
refuted by the code: a style source assigning `fontWeight = 'inf'`
parses as an infinite float, and `int(float('inf'))` raises
`OverflowError`, which the surrounding `except ValueError` does not catch
— the loader propagates the exception instead of falling back to the
default.  (A merely unparseable value such as `'oops'` is caught and
falls back to the fully-populated default style, confirming the fallback
is the intent and the uncaught `OverflowError` a slip.) -/
theorem load_overlay_template_style_raises_on_inf :
    load_overlay_template_style (some [("fontWeight", "inf")]) =
      Except.error "OverflowError: cannot convert float infinity to integer" ∧
    load_overlay_template_style (some [("fontWeight", "oops")]) =
      Except.ok ({} : OverlayTemplateStyle) :=
  ⟨rfl, rfl⟩
